import Mathlib

/-
  Verification of the file-store bot pipeline (src/main.py).

  Strings are modelled as lists of Unicode code points (`PyStr`); for the
  ASCII strings the codec manipulates, code points coincide with bytes.
  Pure Python functions become Lean functions; effectful handlers become
  functions from an explicit environment (the outcomes of every external
  call they make) to the list of externally visible actions they perform,
  in order.
-/

namespace FileStore

/-- Unicode code points of a Python string. -/
abbrev PyStr := List Nat

/-- Code points of a Lean string literal; used to write Python string constants. -/
def strLit (s : String) : PyStr := s.data.map Char.toNat

-- ===========================================================================
-- Link codec (src/main.py lines 199-209)
--
--   def encode(msg_id):
--       return base64.urlsafe_b64encode(str(msg_id).encode()).decode().strip("=")
--   def decode(payload):
--       try:
--           padding = '=' * (4 - len(payload) % 4)
--           return int(base64.urlsafe_b64decode(payload + padding).decode())
--       except:
--           return 0
-- ===========================================================================

/-- Code point of the k-th character of the URL-safe base64 alphabet
(`A-Z`, `a-z`, `0-9`, `-`, `_`). -/
def b64Char (k : Nat) : Nat :=
  if k < 26 then 65 + k
  else if k < 52 then 97 + (k - 26)
  else if k < 62 then 48 + (k - 52)
  else if k = 62 then 45
  else 95

/-- Value of a base64 character as accepted by `base64.urlsafe_b64decode`:
the standard alphabet, with `-` and `_` translated to `+` and `/` first
(so both spellings of the two last digits are accepted); `none` for any
other character, which CPython's lenient decoder silently skips. -/
def b64Val (c : Nat) : Option Nat :=
  if 65 ≤ c ∧ c ≤ 90 then some (c - 65)
  else if 97 ≤ c ∧ c ≤ 122 then some (c - 97 + 26)
  else if 48 ≤ c ∧ c ≤ 57 then some (c - 48 + 52)
  else if c = 43 ∨ c = 45 then some 62
  else if c = 47 ∨ c = 95 then some 63
  else none

/-- CPython's `binascii.a2b_base64` in lenient (non-strict) mode, as run by
`base64.urlsafe_b64decode`: a state machine over the input characters with
quad position `qp`, carried bits `lc`, and a count `pads` of padding
characters seen at quad position ≥ 2.  Characters outside the alphabet are
skipped; `=` at quad position ≥ 2 ends the data once the quad is filled by
padding; leftover data at the end of input (quad position ≠ 0) is an error
(`binascii.Error`), modelled as `none`. -/
def a2b : List Nat → Nat → Nat → Nat → Option (List Nat)
  | [], qp, _, _ => if qp = 0 then some [] else none
  | c :: rest, qp, lc, pads =>
    if c = 61 then
      if 2 ≤ qp then
        if 4 ≤ qp + pads + 1 then some []
        else a2b rest qp lc (pads + 1)
      else a2b rest qp lc pads
    else
      match b64Val c with
      | none => a2b rest qp lc pads
      | some v =>
        match qp with
        | 0 => a2b rest 1 v 0
        | 1 => (a2b rest 2 (v % 16) 0).map fun bs => (lc * 4 + v / 16) :: bs
        | 2 => (a2b rest 3 (v % 4) 0).map fun bs => (lc * 16 + v / 4) :: bs
        | _ => (a2b rest 0 0 0).map fun bs => (lc * 64 + v) :: bs

/-- Standard base64 encoding of a byte list (including `=` padding, code
point 61), as produced by `base64.urlsafe_b64encode`. -/
def encodeB64 : List Nat → List Nat
  | [] => []
  | [b1] => [b64Char (b1 / 4), b64Char (b1 % 4 * 16), 61, 61]
  | [b1, b2] => [b64Char (b1 / 4), b64Char (b1 % 4 * 16 + b2 / 16), b64Char (b2 % 16 * 4), 61]
  | b1 :: b2 :: b3 :: rest =>
    b64Char (b1 / 4) :: b64Char (b1 % 4 * 16 + b2 / 16) ::
      b64Char (b2 % 16 * 4 + b3 / 64) :: b64Char (b3 % 64) :: encodeB64 rest

/-- `l.reverse.dropWhile (= '=') |>.reverse`: remove trailing `=`. -/
def dropTrail (l : List Nat) : List Nat := (l.reverse.dropWhile (· == 61)).reverse

/-- Python `str.strip("=")`: remove leading and trailing `=` characters. -/
def stripEq (l : List Nat) : List Nat := dropTrail (l.dropWhile (· == 61))

/-- Digit characters of `str(n)` for a natural `n`, most significant first
(fuel-based so it reduces in the kernel; `n + 1` fuel always suffices). -/
def decDigitsGo : Nat → Nat → List Nat
  | 0, _ => []
  | fuel + 1, n => if n < 10 then [n + 48] else decDigitsGo fuel (n / 10) ++ [n % 10 + 48]

/-- Python `str(n)` for a natural number. -/
def pyStrNat (n : Nat) : PyStr := decDigitsGo (n + 1) n

/-- Python `str(i)` for an integer (a `-` sign followed by the digits when
negative). -/
def pyStrInt (i : Int) : PyStr :=
  if i < 0 then 45 :: pyStrNat i.natAbs else pyStrNat i.toNat

/-- Helper for `int(...)`: reads a nonempty all-ASCII-digit string. -/
def parseDigitsAux : List Nat → Nat → Option Nat
  | [], acc => some acc
  | c :: rest, acc =>
    if 48 ≤ c ∧ c ≤ 57 then parseDigitsAux rest (acc * 10 + (c - 48)) else none

/-- Helper for `int(...)`: a nonempty run of ASCII digits, else failure. -/
def pyDigits? (l : List Nat) : Option Nat :=
  if l = [] then none else parseDigitsAux l 0

/-- The decimal-literal fragment of Python `int(string)` composed with
UTF-8 decoding of the base64 output: an optional ASCII sign followed by
ASCII digits.  (`int` additionally strips whitespace and accepts
underscore separators and non-ASCII Unicode digits; on such inputs this
model fails where Python would succeed — none of them can arise from the
tokens the bot itself generates, which are pure ASCII digit payloads.) -/
def pyInt? : List Nat → Option Int
  | [] => none
  | c :: rest =>
    if c = 45 then (pyDigits? rest).map fun n => -(n : Int)
    else if c = 43 then (pyDigits? rest).map fun n => (n : Int)
    else (pyDigits? (c :: rest)).map fun n => (n : Int)

/-- `encode(msg_id)` from src/main.py line 199: URL-safe base64 of the
decimal string of the id, with `=` stripped. -/
def encode (msg_id : Nat) : PyStr := stripEq (encodeB64 (pyStrNat msg_id))

/-- `decode(payload)` from src/main.py line 203: re-pad to a multiple of 4,
base64-decode leniently, parse the bytes as an integer; any failure
(non-ASCII payload, leftover base64 data, non-numeric bytes) is caught by
the bare `except` and yields 0. -/
def decode (payload : PyStr) : Int :=
  if ∀ b ∈ payload, b < 128 then
    match a2b (payload ++ List.replicate (4 - payload.length % 4) 61) 0 0 0 with
    | none => 0
    | some bytes =>
      match pyInt? bytes with
      | some i => i
      | none => 0
  else 0

example : encode 5 = strLit "NQ" := by decide
example : decode (strLit "NQ") = 5 := by decide
example : decode (strLit "NQ==") = 5 := by decide
example : decode (strLit "M_") = 3 := by decide
example : decode (strLit "M") = 0 := by decide
example : encode 123 = strLit "MTIz" := by decide
example : decode (strLit "MTIz") = 123 := by decide
example : decode (strLit "!!!") = 0 := by decide
example : decode (strLit "AAAA") = 0 := by decide
example : decode (strLit "LTEy") = -12 := by decide
example : decode [955] = 0 := by decide

-- ===========================================================================
-- Round-trip of the link codec
-- ===========================================================================

theorem b64Char_ne61 (k : Nat) : b64Char k ≠ 61 := by
  unfold b64Char
  split_ifs <;> omega

theorem b64Char_lt128 (k : Nat) : b64Char k < 128 := by
  unfold b64Char
  split_ifs <;> omega

theorem b64Val_b64Char : ∀ k, k < 64 → b64Val (b64Char k) = some k := by decide

/-- Four data characters at quad position 0 emit exactly the three source
bytes and return the machine to quad position 0. -/
theorem a2b_quad (b1 b2 b3 : Nat) (h1 : b1 < 256) (h2 : b2 < 256) (h3 : b3 < 256)
    (tail : List Nat) :
    a2b (b64Char (b1 / 4) :: b64Char (b1 % 4 * 16 + b2 / 16) ::
        b64Char (b2 % 16 * 4 + b3 / 64) :: b64Char (b3 % 64) :: tail) 0 0 0
      = (a2b tail 0 0 0).map fun bs => b1 :: b2 :: b3 :: bs := by
  have n1 := b64Char_ne61 (b1 / 4)
  have n2 := b64Char_ne61 (b1 % 4 * 16 + b2 / 16)
  have n3 := b64Char_ne61 (b2 % 16 * 4 + b3 / 64)
  have n4 := b64Char_ne61 (b3 % 64)
  have v1 : b64Val (b64Char (b1 / 4)) = some (b1 / 4) := b64Val_b64Char _ (by omega)
  have v2 : b64Val (b64Char (b1 % 4 * 16 + b2 / 16)) = some (b1 % 4 * 16 + b2 / 16) :=
    b64Val_b64Char _ (by omega)
  have v3 : b64Val (b64Char (b2 % 16 * 4 + b3 / 64)) = some (b2 % 16 * 4 + b3 / 64) :=
    b64Val_b64Char _ (by omega)
  have v4 : b64Val (b64Char (b3 % 64)) = some (b3 % 64) := b64Val_b64Char _ (by omega)
  simp only [a2b, if_neg n1, if_neg n2, if_neg n3, if_neg n4, v1, v2, v3, v4]
  cases h : a2b tail 0 0 0 with
  | none => rfl
  | some bs => simp; omega

/-- Two data characters followed by the two restored padding characters
decode to the single source byte. -/
theorem a2b_tail1 (b1 : Nat) (h1 : b1 < 256) :
    a2b [b64Char (b1 / 4), b64Char (b1 % 4 * 16), 61, 61] 0 0 0 = some [b1] := by
  have n1 := b64Char_ne61 (b1 / 4)
  have n2 := b64Char_ne61 (b1 % 4 * 16)
  have v1 : b64Val (b64Char (b1 / 4)) = some (b1 / 4) := b64Val_b64Char _ (by omega)
  have v2 : b64Val (b64Char (b1 % 4 * 16)) = some (b1 % 4 * 16) := b64Val_b64Char _ (by omega)
  simp only [a2b, if_neg n1, if_neg n2, v1, v2]
  simp
  omega

/-- Three data characters followed by one restored padding character decode
to the two source bytes. -/
theorem a2b_tail2 (b1 b2 : Nat) (h1 : b1 < 256) (h2 : b2 < 256) :
    a2b [b64Char (b1 / 4), b64Char (b1 % 4 * 16 + b2 / 16), b64Char (b2 % 16 * 4), 61]
      0 0 0 = some [b1, b2] := by
  have n1 := b64Char_ne61 (b1 / 4)
  have n2 := b64Char_ne61 (b1 % 4 * 16 + b2 / 16)
  have n3 := b64Char_ne61 (b2 % 16 * 4)
  have v1 : b64Val (b64Char (b1 / 4)) = some (b1 / 4) := b64Val_b64Char _ (by omega)
  have v2 : b64Val (b64Char (b1 % 4 * 16 + b2 / 16)) = some (b1 % 4 * 16 + b2 / 16) :=
    b64Val_b64Char _ (by omega)
  have v3 : b64Val (b64Char (b2 % 16 * 4)) = some (b2 % 16 * 4) := b64Val_b64Char _ (by omega)
  simp only [a2b, if_neg n1, if_neg n2, if_neg n3, v1, v2, v3]
  simp
  omega

theorem dropTrail_append (l1 l2 : List Nat) (c : Nat) (hc : l1.getLast? = some c)
    (h61 : (c == 61) = false) :
    dropTrail (l1 ++ l2) = l1 ++ dropTrail l2 := by
  unfold dropTrail
  rw [List.reverse_append, List.dropWhile_append]
  have hrev : l1.reverse.head? = some c := by rw [List.head?_reverse]; exact hc
  obtain ⟨t, ht⟩ : ∃ t, l1.reverse = c :: t := by
    cases hr : l1.reverse with
    | nil => rw [hr] at hrev; simp at hrev
    | cons a t =>
        rw [hr] at hrev
        simp at hrev
        exact ⟨t, by rw [hrev]⟩
  have hdw : l1.reverse.dropWhile (· == 61) = l1.reverse := by
    rw [ht, List.dropWhile_cons_of_neg (by simp [h61])]
  by_cases he : ((l2.reverse.dropWhile (· == 61)).isEmpty : Prop)
  · rw [if_pos he, hdw, List.reverse_reverse]
    have : l2.reverse.dropWhile (· == 61) = [] := by
      rwa [List.isEmpty_iff] at he
    rw [this]
    simp
  · rw [if_neg he, List.reverse_append, List.reverse_reverse]

theorem stripEq_eq_dropTrail (l : List Nat)
    (h : l = [] ∨ ∃ c t, l = c :: t ∧ (c == 61) = false) :
    stripEq l = dropTrail l := by
  unfold stripEq
  rcases h with rfl | ⟨c, t, rfl, hc⟩
  · rfl
  · rw [List.dropWhile_cons_of_neg (by simp [hc])]

theorem stripEq_encodeB64 (bs : List Nat) :
    stripEq (encodeB64 bs) = dropTrail (encodeB64 bs) := by
  apply stripEq_eq_dropTrail
  match bs with
  | [] => left; rfl
  | [b1] =>
      right
      exact ⟨_, _, rfl, by rw [beq_eq_false_iff_ne]; exact b64Char_ne61 _⟩
  | [b1, b2] =>
      right
      exact ⟨_, _, rfl, by rw [beq_eq_false_iff_ne]; exact b64Char_ne61 _⟩
  | b1 :: b2 :: b3 :: rest =>
      right
      exact ⟨_, _, rfl, by rw [beq_eq_false_iff_ne]; exact b64Char_ne61 _⟩

theorem stripEq_encodeB64_one (b1 : Nat) :
    stripEq (encodeB64 [b1]) = [b64Char (b1 / 4), b64Char (b1 % 4 * 16)] := by
  rw [stripEq_encodeB64]
  show dropTrail ([b64Char (b1 / 4), b64Char (b1 % 4 * 16)] ++ [61, 61]) = _
  rw [dropTrail_append _ _ (b64Char (b1 % 4 * 16)) (by rfl)
    (by rw [beq_eq_false_iff_ne]; exact b64Char_ne61 _)]
  rfl

theorem stripEq_encodeB64_two (b1 b2 : Nat) :
    stripEq (encodeB64 [b1, b2])
      = [b64Char (b1 / 4), b64Char (b1 % 4 * 16 + b2 / 16), b64Char (b2 % 16 * 4)] := by
  rw [stripEq_encodeB64]
  show dropTrail
    ([b64Char (b1 / 4), b64Char (b1 % 4 * 16 + b2 / 16), b64Char (b2 % 16 * 4)] ++ [61]) = _
  rw [dropTrail_append _ _ (b64Char (b2 % 16 * 4)) (by rfl)
    (by rw [beq_eq_false_iff_ne]; exact b64Char_ne61 _)]
  rfl

theorem stripEq_encodeB64_cons (b1 b2 b3 : Nat) (rest : List Nat) :
    stripEq (encodeB64 (b1 :: b2 :: b3 :: rest))
      = b64Char (b1 / 4) :: b64Char (b1 % 4 * 16 + b2 / 16) ::
          b64Char (b2 % 16 * 4 + b3 / 64) :: b64Char (b3 % 64) ::
            stripEq (encodeB64 rest) := by
  rw [stripEq_encodeB64]
  show dropTrail
    ([b64Char (b1 / 4), b64Char (b1 % 4 * 16 + b2 / 16),
      b64Char (b2 % 16 * 4 + b3 / 64), b64Char (b3 % 64)] ++ encodeB64 rest) = _
  rw [dropTrail_append _ _ (b64Char (b3 % 64)) (by rfl)
    (by rw [beq_eq_false_iff_ne]; exact b64Char_ne61 _)]
  rw [← stripEq_encodeB64]
  rfl

/-- The heart of the round-trip: stripping the padding from the base64
encoding and restoring it from the payload length (as `decode` does)
base64-decodes back to the source bytes. -/
theorem a2b_encode : ∀ (bs : List Nat), (∀ b ∈ bs, b < 256) →
    a2b (stripEq (encodeB64 bs) ++
      List.replicate (4 - (stripEq (encodeB64 bs)).length % 4) 61) 0 0 0 = some bs
  | [], _ => by decide
  | [b1], hb => by
      rw [stripEq_encodeB64_one]
      exact a2b_tail1 b1 (hb b1 (by simp))
  | [b1, b2], hb => by
      rw [stripEq_encodeB64_two]
      exact a2b_tail2 b1 b2 (hb b1 (by simp)) (hb b2 (by simp))
  | b1 :: b2 :: b3 :: rest, hb => by
      have h1 : b1 < 256 := hb b1 (by simp)
      have h2 : b2 < 256 := hb b2 (by simp)
      have h3 : b3 < 256 := hb b3 (by simp)
      have hrest : ∀ b ∈ rest, b < 256 := fun b hm => hb b (by simp [hm])
      rw [stripEq_encodeB64_cons]
      have hlen : (b64Char (b1 / 4) :: b64Char (b1 % 4 * 16 + b2 / 16) ::
          b64Char (b2 % 16 * 4 + b3 / 64) :: b64Char (b3 % 64) ::
            stripEq (encodeB64 rest)).length % 4
          = (stripEq (encodeB64 rest)).length % 4 := by
        simp [List.length_cons]
        omega
      rw [hlen]
      show a2b (b64Char (b1 / 4) :: b64Char (b1 % 4 * 16 + b2 / 16) ::
        b64Char (b2 % 16 * 4 + b3 / 64) :: b64Char (b3 % 64) ::
          (stripEq (encodeB64 rest) ++
            List.replicate (4 - (stripEq (encodeB64 rest)).length % 4) 61)) 0 0 0 = _
      rw [a2b_quad b1 b2 b3 h1 h2 h3, a2b_encode rest hrest]
      rfl

theorem encodeB64_lt128 : ∀ (bs : List Nat), ∀ x ∈ encodeB64 bs, x < 128
  | [], x, hx => by simp [encodeB64] at hx
  | [b1], x, hx => by
      simp [encodeB64] at hx
      rcases hx with rfl | rfl | rfl
      · exact b64Char_lt128 _
      · exact b64Char_lt128 _
      · omega
  | [b1, b2], x, hx => by
      simp [encodeB64] at hx
      rcases hx with rfl | rfl | rfl | rfl
      · exact b64Char_lt128 _
      · exact b64Char_lt128 _
      · exact b64Char_lt128 _
      · omega
  | b1 :: b2 :: b3 :: rest, x, hx => by
      simp only [encodeB64, List.mem_cons] at hx
      rcases hx with rfl | rfl | rfl | rfl | h
      · exact b64Char_lt128 _
      · exact b64Char_lt128 _
      · exact b64Char_lt128 _
      · exact b64Char_lt128 _
      · exact encodeB64_lt128 rest x h

theorem mem_stripEq {x : Nat} {l : List Nat} (h : x ∈ stripEq l) : x ∈ l := by
  unfold stripEq dropTrail at h
  rw [List.mem_reverse] at h
  have h1 : x ∈ (l.dropWhile (· == 61)).reverse := (List.dropWhile_sublist _).subset h
  rw [List.mem_reverse] at h1
  exact (List.dropWhile_sublist _).subset h1

theorem decDigitsGo_digits : ∀ (fuel n : Nat), ∀ c ∈ decDigitsGo fuel n, 48 ≤ c ∧ c ≤ 57
  | 0, n, c, hc => by simp [decDigitsGo] at hc
  | fuel + 1, n, c, hc => by
      rw [decDigitsGo] at hc
      by_cases h : n < 10
      · rw [if_pos h] at hc
        simp at hc
        omega
      · rw [if_neg h] at hc
        rw [List.mem_append] at hc
        rcases hc with hc | hc
        · exact decDigitsGo_digits fuel (n / 10) c hc
        · simp at hc; omega

theorem parseDigitsAux_digits : ∀ (l : List Nat) (acc : Nat), (∀ c ∈ l, 48 ≤ c ∧ c ≤ 57) →
    parseDigitsAux l acc = some (l.foldl (fun a c => a * 10 + (c - 48)) acc)
  | [], _, _ => rfl
  | c :: rest, acc, h => by
      rw [parseDigitsAux, if_pos (h c (by simp))]
      rw [parseDigitsAux_digits rest _ (fun d hd => h d (by simp [hd]))]
      rfl

theorem foldl_digits_shift : ∀ (l : List Nat) (acc : Nat),
    l.foldl (fun a c => a * 10 + (c - 48)) acc
      = acc * 10 ^ l.length + l.foldl (fun a c => a * 10 + (c - 48)) 0
  | [], acc => by simp
  | c :: l, acc => by
      rw [List.foldl_cons, List.foldl_cons]
      rw [foldl_digits_shift l (acc * 10 + (c - 48)), foldl_digits_shift l (0 * 10 + (c - 48))]
      simp [List.length_cons]
      ring

theorem decDigitsGo_val : ∀ (fuel n : Nat), n < 10 ^ fuel →
    (decDigitsGo fuel n).foldl (fun a c => a * 10 + (c - 48)) 0 = n
  | 0, n, h => by
      simp only [pow_zero] at h
      simp only [decDigitsGo, List.foldl_nil]
      omega
  | fuel + 1, n, h => by
      rw [decDigitsGo]
      by_cases h10 : n < 10
      · rw [if_pos h10]; simp
      · rw [if_neg h10]
        rw [List.foldl_append]
        rw [decDigitsGo_val fuel (n / 10) (by
          have hp : n < 10 ^ fuel * 10 := by rw [← pow_succ]; exact h
          omega)]
        simp
        omega

theorem lt_ten_pow (n : Nat) : n < 10 ^ (n + 1) := by
  induction n with
  | zero => simp
  | succ n ih =>
      have h2 : 10 ^ (n + 1) < 10 ^ (n + 2) := Nat.pow_lt_pow_succ (by norm_num)
      omega

theorem pyStrNat_digits (n : Nat) : ∀ c ∈ pyStrNat n, 48 ≤ c ∧ c ≤ 57 :=
  decDigitsGo_digits (n + 1) n

theorem pyStrNat_val (n : Nat) :
    (pyStrNat n).foldl (fun a c => a * 10 + (c - 48)) 0 = n :=
  decDigitsGo_val (n + 1) n (lt_ten_pow n)

theorem pyStrNat_ne_nil (n : Nat) : pyStrNat n ≠ [] := by
  unfold pyStrNat
  rw [decDigitsGo]
  by_cases h : n < 10
  · simp [h]
  · simp [h]

theorem pyInt?_pyStrNat (n : Nat) : pyInt? (pyStrNat n) = some (n : Int) := by
  cases hp : pyStrNat n with
  | nil => exact absurd hp (pyStrNat_ne_nil n)
  | cons c t =>
      have hall : ∀ d ∈ c :: t, 48 ≤ d ∧ d ≤ 57 := by
        rw [← hp]; exact pyStrNat_digits n
      have hval : (c :: t).foldl (fun a c => a * 10 + (c - 48)) 0 = n := by
        rw [← hp]; exact pyStrNat_val n
      have hc := hall c (by simp)
      rw [pyInt?, if_neg (by omega), if_neg (by omega)]
      rw [pyDigits?, if_neg (by simp)]
      rw [parseDigitsAux_digits _ _ hall, hval]
      rfl

/-- Shared round-trip fact: decoding a generated token recovers the id. -/
theorem decode_encode (n : Nat) : decode (encode n) = (n : Int) := by
  have hb : ∀ b ∈ pyStrNat n, b < 256 := by
    intro b hbm
    have := pyStrNat_digits n b hbm
    omega
  have hascii : ∀ b ∈ stripEq (encodeB64 (pyStrNat n)), b < 128 := by
    intro b hbm
    exact encodeB64_lt128 (pyStrNat n) b (mem_stripEq hbm)
  unfold decode encode
  rw [if_pos hascii]
  simp only [a2b_encode (pyStrNat n) hb, pyInt?_pyStrNat]

/-- C1: for every content id `i` (a natural message id), `decode (encode i) = i`;
`encode` is a pure function of the id (determinism is definitional), stripping
the trailing base64 padding, which `decode` restores from the payload length. -/
theorem link_codec_roundtrip (n : Nat) : decode (encode n) = (n : Int) :=
  decode_encode n

-- ===========================================================================
-- Totality of decode (claim C2)
-- ===========================================================================

/-- C2 counterexample: the claim that every string that is not a valid
encoding decodes to 0 is false: `"NQ=="` (the canonical token `"NQ"` with
wrongly restored padding) is not `encode i` for any id `i`, yet decodes to
5, because the lenient base64 decoder tolerates the extra padding. -/
theorem decode_totality_cex :
    decode (strLit "NQ==") = 5 ∧ ∀ i : Nat, encode i ≠ strLit "NQ==" := by
  constructor
  · decide
  · intro i hi
    have h5 : decode (strLit "NQ==") = (i : Int) := by rw [← hi]; exact decode_encode i
    have hv : decode (strLit "NQ==") = (5 : Int) := by decide
    have hi5 : i = 5 := by
      have : (i : Int) = (5 : Int) := by rw [← h5, hv]
      exact_mod_cast this
    rw [hi5] at hi
    exact absurd hi (by decide)

/-- C2 amended: `decode` is total (every failure path of the Python body is
caught and mapped to 0), and a nonzero result guarantees that the payload
was ASCII, base64-decoded successfully after padding restoration, and
parsed as an integer — but a nonzero result does not imply the payload was
a canonical `encode` output (see the counterexample). -/
theorem decode_totality_amended (s : PyStr) (h : decode s ≠ 0) :
    (∀ b ∈ s, b < 128) ∧
    ∃ bytes, a2b (s ++ List.replicate (4 - s.length % 4) 61) 0 0 0 = some bytes ∧
      pyInt? bytes = some (decode s) := by
  by_cases ha : ∀ b ∈ s, b < 128
  · refine ⟨ha, ?_⟩
    cases h2 : a2b (s ++ List.replicate (4 - s.length % 4) 61) 0 0 0 with
    | none =>
        exfalso
        apply h
        unfold decode
        rw [if_pos ha, h2]
    | some bytes =>
        refine ⟨bytes, rfl, ?_⟩
        cases h3 : pyInt? bytes with
        | none =>
            exfalso
            apply h
            unfold decode
            rw [if_pos ha, h2]
            simp only [h3]
        | some i =>
            have hd : decode s = i := by
              unfold decode
              rw [if_pos ha, h2]
              simp only [h3]
            rw [hd]
  · exfalso
    apply h
    unfold decode
    rw [if_neg ha]

theorem decode_totality_amended_witness :
    (∀ b ∈ strLit "NQ", b < 128) ∧
    ∃ bytes, a2b (strLit "NQ" ++ List.replicate (4 - (strLit "NQ").length % 4) 61) 0 0 0
        = some bytes ∧
      pyInt? bytes = some (decode (strLit "NQ")) :=
  decode_totality_amended (strLit "NQ") (by decide)

-- ===========================================================================
-- Python string helpers used by the handlers
-- ===========================================================================

/-- Helper for `str.split`: prepend a character to the first group. -/
def consHead (c : Nat) : List PyStr → List PyStr
  | [] => [[c]]
  | g :: gs => (c :: g) :: gs

/-- Python `s.split(sep)` for a single-character separator (always returns
at least one group; adjacent separators yield empty groups, like Python). -/
def splitChar (sep : Nat) : PyStr → List PyStr
  | [] => [[]]
  | c :: rest =>
    if c = sep then [] :: splitChar sep rest
    else consHead c (splitChar sep rest)

example : splitChar 95 (strLit "verify_M_") = [strLit "verify", strLit "M", []] := by decide

/-- Fuel-driven body of Python `str.replace` (left-to-right, non-overlapping;
the fuel is the string length, which suffices since every step consumes at
least one character for a nonempty pattern). -/
def replaceFuel (pat rep : List Nat) : Nat → List Nat → List Nat
  | 0, l => l
  | _, [] => []
  | fuel + 1, c :: rest =>
    if pat.isPrefixOf (c :: rest) then
      rep ++ replaceFuel pat rep fuel (List.drop (pat.length - 1) rest)
    else c :: replaceFuel pat rep fuel rest

/-- Python `s.replace(pat, rep)` for a nonempty pattern. -/
def pyReplace (pat rep s : PyStr) : PyStr := replaceFuel pat rep s.length s

example : pyReplace (strLit "verify_") [] (strLit "verify_NQ") = strLit "NQ" := by decide
example : pyReplace (strLit "verify_") [] (strLit "batch_ab") = strLit "batch_ab" := by decide

/-- Does `pat` occur as a contiguous substring? (mirrors the scan of
`replaceFuel`). -/
def hasPat (pat : PyStr) : PyStr → Bool
  | [] => pat.isPrefixOf []
  | c :: rest => pat.isPrefixOf (c :: rest) || hasPat pat rest

theorem replaceFuel_no_occur (pat rep : PyStr) :
    ∀ (fuel : Nat) (l : PyStr), l.length ≤ fuel → hasPat pat l = false →
      replaceFuel pat rep fuel l = l
  | 0, l, hf, _ => by
      cases l with
      | nil => rfl
      | cons c rest => simp at hf
  | fuel + 1, [], _, _ => rfl
  | fuel + 1, c :: rest, hf, ho => by
      rw [hasPat, Bool.or_eq_false_iff] at ho
      rw [replaceFuel, if_neg (by simp [ho.1])]
      rw [replaceFuel_no_occur pat rep fuel rest (by simp at hf; omega) ho.2]

/-- `replace` is the identity on strings in which the pattern never occurs. -/
theorem pyReplace_no_occur (pat rep s : PyStr) (ho : hasPat pat s = false) :
    pyReplace pat rep s = s :=
  replaceFuel_no_occur pat rep s.length s (le_refl _) ho

/-- Removing a nonempty pattern from `pat ++ t` when the pattern does not
occur in `t` yields exactly `t` (used for the `verify_`-stripping retry). -/
theorem pyReplace_head (p0 : Nat) (p' t : PyStr) (ho : hasPat (p0 :: p') t = false) :
    pyReplace (p0 :: p') [] ((p0 :: p') ++ t) = t := by
  unfold pyReplace
  have hpre : (p0 :: p').isPrefixOf (p0 :: (p' ++ t)) = true := by
    rw [← List.cons_append, List.isPrefixOf_iff_prefix]
    exact List.prefix_append _ _
  have hlen : ((p0 :: p') ++ t).length = p'.length + t.length + 1 := by
    rw [List.length_append, List.length_cons]
    omega
  rw [hlen]
  show replaceFuel (p0 :: p') [] (p'.length + t.length + 1) (p0 :: (p' ++ t)) = t
  rw [replaceFuel, if_pos hpre]
  have hdrop : List.drop ((p0 :: p').length - 1) (p' ++ t) = t := by
    simp only [List.length_cons, Nat.succ_sub_one]
    exact List.drop_left p' t
  rw [hdrop, List.nil_append]
  exact replaceFuel_no_occur _ _ _ _ (by omega) ho

-- ===========================================================================
-- Data model of the handlers (src/main.py)
--
-- Handlers are effectful; they are embedded as functions from an `Env` —
-- the outcomes of every external call the handler may make (membership
-- lookups, invite-link fetches, the shortener HTTP round-trip, message
-- copies, the user's stored record, the batch collection) — to the ordered
-- list of externally visible `Action`s the handler performs.  Database
-- bookkeeping with no user-visible effect (the `add_user` upsert and its
-- log message) is not part of the trace.
-- ===========================================================================

/-- `{ is_premium, banned }` fields of a stored user document
(src/main.py lines 113-129). -/
structure UserRec where
  is_premium : Bool
  banned : Bool
  deriving DecidableEq

/-- `pyrogram.enums.ChatMemberStatus` values. -/
inductive MemberStatus
  | owner
  | administrator
  | member
  | restricted
  | left
  | banned
  deriving DecidableEq

/-- Outcome of `client.get_chat_member(channel_id, user_id)`:
a status, the `UserNotParticipant` exception, or any other exception
(bot not admin, invalid channel, network error...). -/
inductive MemberLookup
  | status (s : MemberStatus)
  | notParticipant
  | failure
  deriving DecidableEq

/-- Outcome of the shortener HTTP call: either any exception (network
error, non-JSON body) or a parsed JSON object, modelled as its string
fields. -/
inductive ShortenerResponse
  | failure
  | json (fields : List (PyStr × PyStr))
  deriving DecidableEq

/-- A persisted batch document (src/main.py lines 166-180). -/
structure BatchRec where
  batch_id : PyStr
  range_ids : List Int
  deriving DecidableEq

/-- Configuration read from the environment (src/main.py lines 60-74). -/
structure Config where
  forceSubChannels : List Int
  shortenerUrls : List PyStr
  protectContent : Bool
  autoDeleteTime : Nat

/-- Outcomes of the external calls a single request can make. -/
structure Env where
  membership : Int → MemberLookup
  inviteLink : Int → Option PyStr
  shortener : ShortenerResponse
  copyOk : Int → Bool
  botUsername : PyStr
  user : Option UserRec
  store : List BatchRec

/-- Externally visible actions of a handler, in program order. -/
inductive Action
  | replyBanned
  | replyHome
  | replyAccessDenied (invites : List PyStr) (retryPayload : PyStr)
  | replyBatchNotFound
  | replyProcessing (count : Nat)
  | copyContent (msgId : Int) (protect : Bool)
  | scheduleAutoDelete (delay : Nat)
  | replyDeleteNote
  | deleteStatus
  | replyInvalidLink
  | replyErrorFetching
  | callShortener (url : PyStr)
  | replyUnlock (buttonUrl : PyStr)
  deriving DecidableEq

/-- `user.get("banned", False)` over the optional stored record. -/
def user_banned : Option UserRec → Bool
  | some u => u.banned
  | none => false

/-- `user.get("is_premium", False)` over the optional stored record. -/
def user_premium : Option UserRec → Bool
  | some u => u.is_premium
  | none => false

/-- One channel's contribution to the gap in `check_force_sub`
(src/main.py lines 256-264): a successful lookup contributes iff the
status is BANNED or LEFT; `UserNotParticipant` contributes; any other
exception is swallowed (`except Exception: pass`) and contributes
nothing. -/
def statusMissing : MemberLookup → Bool
  | .status s => s == .banned || s == .left
  | .notParticipant => true
  | .failure => false

/-- `check_force_sub(client, user_id)` from src/main.py lines 253-265:
empty fast path, then one membership lookup per configured channel, in
configuration order. -/
def check_force_sub (cfg : Config) (env : Env) : List Int :=
  if cfg.forceSubChannels = [] then []
  else cfg.forceSubChannels.filter fun cid => statusMissing (env.membership cid)

/-- `data.get(key)` followed by Python truthiness: a missing key or an
empty-string value are both falsy. -/
def jsonGetTruthy (fields : List (PyStr × PyStr)) (k : PyStr) : Option PyStr :=
  match (fields.find? fun p => p.1 == k).map Prod.snd with
  | some v => if v = [] then none else some v
  | none => none

/-- `get_short_link(long_url)` from src/main.py lines 219-236: identity if
no shortener is configured; otherwise issue the HTTP call and take
`data.get("shortenedUrl") or data.get("url") or data.get("short_url") or
long_url`, with any exception also falling back to `long_url`.  (Which
template `random.choice` picked does not affect the returned value, so the
choice is not part of the model.) -/
def get_short_link (cfg : Config) (env : Env) (long_url : PyStr) : PyStr :=
  if cfg.shortenerUrls = [] then long_url
  else
    match env.shortener with
    | .failure => long_url
    | .json fields =>
      ((jsonGetTruthy fields (strLit "shortenedUrl")).or
        ((jsonGetTruthy fields (strLit "url")).or
          (jsonGetTruthy fields (strLit "short_url")))).getD long_url

/-- `save_batch(range_ids)` from src/main.py lines 166-175: insert a new
document carrying a freshly generated 8-character id (the generated
randomness is an input here) and return the id. -/
def save_batch (store : List BatchRec) (freshId : PyStr) (range_ids : List Int) :
    List BatchRec × PyStr :=
  (store ++ [⟨freshId, range_ids⟩], freshId)

/-- `get_batch(batch_id)` from src/main.py lines 177-179: `find_one` over
the collection (first match in insertion order). -/
def get_batch (store : List BatchRec) (batch_id : PyStr) : Option (List Int) :=
  (store.find? fun r => r.batch_id == batch_id).map fun r => r.range_ids

/-- `list(range(start_id, end_id + 1))` over Python ints. -/
def intRangeIncl (a b : Int) : List Int :=
  (List.range (b + 1 - a).toNat).map fun k : Nat => a + (k : Int)

/-- Core of `batch_handler` (src/main.py lines 542-548): build the
inclusive range, persist it via `save_batch`, and report success with the
batch link and the file count `len(range_ids)`.  Returns the new store,
the returned batch id and the reported count. -/
def batch_handler (store : List BatchRec) (freshId : PyStr) (start_id end_id : Int) :
    List BatchRec × PyStr × Nat :=
  let range_ids := intRangeIncl start_id end_id
  let p := save_batch store freshId range_ids
  (p.1, p.2, range_ids.length)

/-- Fallback invite URL `f"https://t.me/c/{str(cid)[4:]}/1"`
(src/main.py line 393). -/
def fallbackInvite (cid : Int) : PyStr :=
  strLit "https://t.me/c/" ++ (pyStrInt cid).drop 4 ++ strLit "/1"

/-- `start_handler` from src/main.py lines 355-469, as a function of the
request (`command = message.command`) and the environment.  Every branch
mirrors the source: ban check, bare `/start`, force-sub gate with invite
buttons and a retry button whose payload is `payload.replace("verify_", "")`,
then the `batch_`, `verify_` and plain-token modes.  `copyContent` records
an invocation of `client.copy_message`; whether it succeeds is `env.copyOk`. -/
def start_handler (cfg : Config) (env : Env) (command : List PyStr) : List Action :=
  if user_banned env.user then [.replyBanned]
  else if command.length < 2 then [.replyHome]
  else
    let payload := (command.get? 1).getD []
    let missing := check_force_sub cfg env
    if missing ≠ [] then
      [.replyAccessDenied
        (missing.map fun cid => (env.inviteLink cid).getD (fallbackInvite cid))
        (pyReplace (strLit "verify_") [] payload)]
    else if (strLit "batch_").isPrefixOf payload then
      let batch_id := ((splitChar 95 payload).get? 1).getD []
      match get_batch env.store batch_id with
      | none => [.replyBatchNotFound]
      | some ids =>
        .replyProcessing ids.length ::
          (ids.flatMap fun mid =>
            .copyContent mid cfg.protectContent ::
              (if env.copyOk mid then
                (if cfg.autoDeleteTime > 0 then [.scheduleAutoDelete cfg.autoDeleteTime]
                 else [])
               else []))
          ++ [.deleteStatus]
    else if (strLit "verify_").isPrefixOf payload then
      let real_code := ((splitChar 95 payload).get? 1).getD []
      let msg_id := decode real_code
      if msg_id = 0 then [.replyInvalidLink]
      else
        .copyContent msg_id cfg.protectContent ::
          (if env.copyOk msg_id then
            (if cfg.autoDeleteTime > 0 then
              [.scheduleAutoDelete cfg.autoDeleteTime, .replyDeleteNote,
                .scheduleAutoDelete cfg.autoDeleteTime]
             else [])
           else [.replyErrorFetching])
    else
      let msg_id := decode payload
      if msg_id = 0 then [.replyInvalidLink]
      else if cfg.shortenerUrls ≠ [] ∧ user_premium env.user = false then
        let verify_link :=
          strLit "https://t.me/" ++ env.botUsername ++ strLit "?start=verify_" ++ payload
        [.callShortener verify_link, .replyUnlock (get_short_link cfg env verify_link)]
      else
        .copyContent msg_id cfg.protectContent ::
          (if env.copyOk msg_id then
            (if cfg.autoDeleteTime > 0 then [.scheduleAutoDelete cfg.autoDeleteTime]
             else [])
           else [.replyErrorFetching])

-- ===========================================================================
-- Broadcast fan-out (src/main.py lines 561-583)
-- ===========================================================================

/-- Outcome of one `message.reply_to_message.copy(user_id)` call. -/
inductive SendOutcome
  | ok
  | floodWait (seconds : Nat)
  | error
  deriving DecidableEq

/-- Observable result of the broadcast loop: the two counters of the final
tally, the FloodWait sleeps performed (in order), and whether the loop
reached the end of the audience (if not, an exception escaped the handler
and the final tally was never reported). -/
structure BroadcastResult where
  success : Nat
  failed : Nat
  floodSleeps : List Nat
  completed : Bool
  deriving DecidableEq

/-- The broadcast loop from src/main.py lines 571-581, one audience entry
per user: the first component is the outcome of the initial copy, the
second the outcome of the retry copy (only reached after a FloodWait).
`except FloodWait` sleeps `e.value` and retries once — but the retry is
*not* inside a `try`, so if the retry itself raises, the exception
propagates out of the loop (no sibling `except` applies inside an except
block) and the fan-out aborts.  Any other first-attempt failure increments
`failed` and continues. -/
def broadcast : List (SendOutcome × SendOutcome) → BroadcastResult
  | [] => ⟨0, 0, [], true⟩
  | (first, retry) :: rest =>
    match first with
    | .ok =>
        let r := broadcast rest
        ⟨r.success + 1, r.failed, r.floodSleeps, r.completed⟩
    | .error =>
        let r := broadcast rest
        ⟨r.success, r.failed + 1, r.floodSleeps, r.completed⟩
    | .floodWait w =>
        match retry with
        | .ok =>
            let r := broadcast rest
            ⟨r.success + 1, r.failed, w :: r.floodSleeps, r.completed⟩
        | _ => ⟨0, 0, [w], false⟩

/-- Audience entries whose delivery the loop counts as success when no
retry aborts: first attempt ok, or throttled with successful retry. -/
def attemptSuccess (p : SendOutcome × SendOutcome) : Bool :=
  match p.1 with
  | .ok => true
  | .floodWait _ => true
  | .error => false

/-- Audience entries counted in the failure counter. -/
def attemptFailed (p : SendOutcome × SendOutcome) : Bool :=
  match p.1 with
  | .error => true
  | _ => false

/-- The required FloodWait pauses of an audience prefix, in order. -/
def floodWaits (l : List (SendOutcome × SendOutcome)) : List Nat :=
  l.filterMap fun p =>
    match p.1 with
    | .floodWait w => some w
    | _ => none

/-- An audience entry whose throttle retry (if any) succeeds. -/
def goodRetry (p : SendOutcome × SendOutcome) : Bool :=
  match p.1 with
  | .floodWait _ => p.2 == .ok
  | _ => true

-- ===========================================================================
-- Helper lemmas about the payload grammar
-- ===========================================================================

theorem splitChar_pre (sep : Nat) (pre t : PyStr) (h : sep ∉ pre) :
    splitChar sep (pre ++ sep :: t) = pre :: splitChar sep t := by
  induction pre with
  | nil => simp [splitChar]
  | cons c pre ih =>
      have hc : c ≠ sep := by
        intro hcc
        exact h (by rw [hcc]; simp)
      have h' : sep ∉ pre := fun hm => h (by simp [hm])
      rw [List.cons_append, splitChar, if_neg hc, ih h']
      rfl

theorem splitChar_no_sep (sep : Nat) (t : PyStr) (h : sep ∉ t) :
    splitChar sep t = [t] := by
  induction t with
  | nil => rfl
  | cons c rest ih =>
      have hc : c ≠ sep := by
        intro hcc
        exact h (by rw [hcc]; simp)
      rw [splitChar, if_neg hc, ih (fun hm => h (by simp [hm]))]
      rfl

/-- `payload.split("_")[1]` recovers the token of a `verify_` payload when
the token itself contains no underscore. -/
theorem verify_code (t : PyStr) (h : (95 : Nat) ∉ t) :
    ((splitChar 95 (strLit "verify_" ++ t)).get? 1).getD [] = t := by
  have hv : strLit "verify_" ++ t = strLit "verify" ++ (95 :: t) := by
    have he : strLit "verify_" = strLit "verify" ++ [95] := by decide
    rw [he, List.append_assoc]
    rfl
  rw [hv, splitChar_pre 95 (strLit "verify") t (by decide), splitChar_no_sep 95 t h]
  rfl

/-- `payload.split("_")[1]` recovers the batch id of a `batch_` payload when
the id contains no underscore (the generated ids are alphanumeric). -/
theorem batch_code (t : PyStr) (h : (95 : Nat) ∉ t) :
    ((splitChar 95 (strLit "batch_" ++ t)).get? 1).getD [] = t := by
  have hv : strLit "batch_" ++ t = strLit "batch" ++ (95 :: t) := by
    have he : strLit "batch_" = strLit "batch" ++ [95] := by decide
    rw [he, List.append_assoc]
    rfl
  rw [hv, splitChar_pre 95 (strLit "batch") t (by decide), splitChar_no_sep 95 t h]
  rfl

theorem verify_isPrefixOf_self (t : PyStr) :
    (strLit "verify_").isPrefixOf (strLit "verify_" ++ t) = true := by
  rw [List.isPrefixOf_iff_prefix]
  exact List.prefix_append _ _

theorem batch_isPrefixOf_self (t : PyStr) :
    (strLit "batch_").isPrefixOf (strLit "batch_" ++ t) = true := by
  rw [List.isPrefixOf_iff_prefix]
  exact List.prefix_append _ _

theorem not_batch_of_verify (t : PyStr) :
    (strLit "batch_").isPrefixOf (strLit "verify_" ++ t) = false := by
  cases hc : (strLit "batch_").isPrefixOf (strLit "verify_" ++ t) with
  | false => rfl
  | true =>
      exfalso
      rw [List.isPrefixOf_iff_prefix] at hc
      obtain ⟨s, hs⟩ := hc
      have hb : strLit "batch_" = 98 :: strLit "atch_" := by decide
      have hv : strLit "verify_" = 118 :: strLit "erify_" := by decide
      rw [hb, hv] at hs
      simp at hs

-- ===========================================================================
-- C3: premium verification bypass
-- ===========================================================================

/-- C3: for a premium user on the plain-token path (not banned, gate clear,
valid token), `start_handler` invokes content delivery directly and never
calls the shortener, for every configuration — in particular even when
shortener endpoints are configured. -/
theorem premium_bypass (cfg : Config) (env : Env) (c0 payload : PyStr)
    (hban : user_banned env.user = false)
    (hprem : user_premium env.user = true)
    (hmiss : check_force_sub cfg env = [])
    (hb : (strLit "batch_").isPrefixOf payload = false)
    (hv : (strLit "verify_").isPrefixOf payload = false)
    (hdec : decode payload ≠ 0) :
    Action.copyContent (decode payload) cfg.protectContent
        ∈ start_handler cfg env [c0, payload] ∧
    ∀ url, Action.callShortener url ∉ start_handler cfg env [c0, payload] := by
  have htrace : start_handler cfg env [c0, payload]
      = Action.copyContent (decode payload) cfg.protectContent ::
          (if env.copyOk (decode payload) then
            (if cfg.autoDeleteTime > 0 then [Action.scheduleAutoDelete cfg.autoDeleteTime]
             else [])
           else [Action.replyErrorFetching]) := by
    have hpay : (([c0, payload] : List PyStr).get? 1).getD [] = payload := rfl
    simp only [start_handler]
    rw [hpay, hban, hmiss, hb, hv]
    simp [hdec, hprem]
  constructor
  · rw [htrace]
    exact List.mem_cons_self _ _
  · intro url hmem
    rw [htrace] at hmem
    rcases List.mem_cons.mp hmem with h | h
    · simp at h
    · split_ifs at h <;> simp at h

-- ===========================================================================
-- C4: shortener identity fallback
-- ===========================================================================

/-- C4: if the provider call fails (exception: network error or non-JSON
body) or the JSON object has none of the keys `shortenedUrl`, `url`,
`short_url`, then `get_short_link` returns the input URL unchanged. -/
theorem shortener_fallback (cfg : Config) (env : Env) (url : PyStr)
    (h : env.shortener = .failure ∨
      ∃ fields, env.shortener = .json fields ∧
        (fields.find? fun p => p.1 == strLit "shortenedUrl") = none ∧
        (fields.find? fun p => p.1 == strLit "url") = none ∧
        (fields.find? fun p => p.1 == strLit "short_url") = none) :
    get_short_link cfg env url = url := by
  unfold get_short_link
  by_cases hc : cfg.shortenerUrls = []
  · rw [if_pos hc]
  · rw [if_neg hc]
    rcases h with h | ⟨fields, hf, h1, h2, h3⟩
    · rw [h]
    · rw [hf]
      have g1 : jsonGetTruthy fields (strLit "shortenedUrl") = none := by
        simp [jsonGetTruthy, h1]
      have g2 : jsonGetTruthy fields (strLit "url") = none := by
        simp [jsonGetTruthy, h2]
      have g3 : jsonGetTruthy fields (strLit "short_url") = none := by
        simp [jsonGetTruthy, h3]
      simp [g1, g2, g3]

def cfgC4 : Config := ⟨[], [strLit "https://api.example/short?u="], true, 600⟩

def envC4 : Env :=
  ⟨fun _ => MemberLookup.failure, fun _ => none,
    ShortenerResponse.json [(strLit "status", strLit "error")],
    fun _ => true, strLit "FileBot", none, []⟩

theorem shortener_fallback_witness :
    get_short_link cfgC4 envC4 (strLit "https://t.me/FileBot?start=verify_NQ")
      = strLit "https://t.me/FileBot?start=verify_NQ" :=
  shortener_fallback cfgC4 envC4 _
    (Or.inr ⟨[(strLit "status", strLit "error")], rfl, by decide, by decide, by decide⟩)

-- ===========================================================================
-- C5: access-gate fail-open
-- ===========================================================================

/-- C5: a channel whose membership lookup raises an error other than
`UserNotParticipant` is never part of the returned gap; a channel is in
the gap exactly when it is configured and the lookup signalled
not-participant or returned the BANNED or LEFT status. -/
theorem force_sub_fail_open (cfg : Config) (env : Env) (cid : Int) :
    (env.membership cid = .failure → cid ∉ check_force_sub cfg env) ∧
    (cid ∈ check_force_sub cfg env ↔
      cid ∈ cfg.forceSubChannels ∧
        (env.membership cid = .notParticipant ∨
         env.membership cid = .status .banned ∨
         env.membership cid = .status .left)) := by
  have hiff : cid ∈ check_force_sub cfg env ↔
      cid ∈ cfg.forceSubChannels ∧
        (env.membership cid = .notParticipant ∨
         env.membership cid = .status .banned ∨
         env.membership cid = .status .left) := by
    unfold check_force_sub
    by_cases hc : cfg.forceSubChannels = []
    · rw [if_pos hc]
      simp [hc]
    · rw [if_neg hc, List.mem_filter]
      constructor
      · rintro ⟨h1, h2⟩
        refine ⟨h1, ?_⟩
        cases hm : env.membership cid with
        | status s =>
            rw [hm] at h2
            cases s <;> simp_all [statusMissing]
        | notParticipant => exact Or.inl rfl
        | failure =>
            rw [hm] at h2
            simp [statusMissing] at h2
      · rintro ⟨h1, h2⟩
        refine ⟨h1, ?_⟩
        rcases h2 with h2 | h2 | h2 <;> rw [h2] <;> rfl
  constructor
  · intro hf hmem
    have := hiff.mp hmem
    rw [hf] at this
    rcases this.2 with h | h | h <;> simp at h
  · exact hiff

def cfgC5 : Config := ⟨[-1001111, -1002222], [], true, 0⟩

def envC5 : Env :=
  ⟨fun cid => if cid = -1001111 then MemberLookup.failure else MemberLookup.notParticipant,
    fun _ => none, ShortenerResponse.failure, fun _ => true, strLit "FileBot", none, []⟩

theorem force_sub_fail_open_witness :
    (envC5.membership (-1001111) = .failure → (-1001111 : Int) ∉ check_force_sub cfgC5 envC5) ∧
    ((-1001111 : Int) ∈ check_force_sub cfgC5 envC5 ↔
      (-1001111 : Int) ∈ cfgC5.forceSubChannels ∧
        (envC5.membership (-1001111) = .notParticipant ∨
         envC5.membership (-1001111) = .status .banned ∨
         envC5.membership (-1001111) = .status .left)) :=
  force_sub_fail_open cfgC5 envC5 (-1001111)

def cfgC3 : Config := ⟨[], [strLit "https://short.example/api?u="], true, 600⟩

def envC3 : Env :=
  ⟨fun _ => MemberLookup.failure, fun _ => none, ShortenerResponse.failure,
    fun _ => true, strLit "FileBot", some ⟨true, false⟩, []⟩

theorem premium_bypass_witness :
    Action.copyContent (decode (strLit "NQ")) cfgC3.protectContent
        ∈ start_handler cfgC3 envC3 [strLit "start", strLit "NQ"] ∧
    ∀ url, Action.callShortener url ∉ start_handler cfgC3 envC3 [strLit "start", strLit "NQ"] :=
  premium_bypass cfgC3 envC3 (strLit "start") (strLit "NQ") (by decide) (by decide)
    (by decide) (by decide) (by decide) (by decide)

-- ===========================================================================
-- C6: access-denied remediation
-- ===========================================================================

def cfgC6 : Config := ⟨[-1003333], [], true, 600⟩

def envC6 : Env :=
  ⟨fun _ => MemberLookup.notParticipant, fun _ => some (strLit "https://t.me/+inv1"),
    ShortenerResponse.failure, fun _ => true, strLit "FileBot", some ⟨false, false⟩, []⟩

/-- C6 counterexample: with one missing channel and the payload
`verify_NQ`, the access-denied reply's retry entry carries `NQ`, not the
original payload — `payload.replace("verify_", "")` strips the wrapper, so
`verify_`-shaped payloads are not re-dispatched unchanged. -/
theorem remediation_cex :
    start_handler cfgC6 envC6 [strLit "start", strLit "verify_NQ"]
      = [Action.replyAccessDenied [strLit "https://t.me/+inv1"] (strLit "NQ")] ∧
    strLit "NQ" ≠ strLit "verify_NQ" := by
  constructor
  · decide
  · decide

/-- C6 amended: whenever the gap is nonempty the response is exactly one
access-denied reply with one invite entry per missing channel (in gap
order) plus a single retry entry whose payload is the original payload
with every occurrence of `verify_` removed: payloads not containing
`verify_` (plain tokens, batch links) are re-dispatched unchanged, while
`verify_`-wrapped payloads are re-dispatched with the wrapper stripped. -/
theorem access_denied_remediation (cfg : Config) (env : Env) (c0 payload : PyStr)
    (hban : user_banned env.user = false)
    (hmiss : check_force_sub cfg env ≠ []) :
    start_handler cfg env [c0, payload]
      = [Action.replyAccessDenied
          ((check_force_sub cfg env).map fun cid =>
            (env.inviteLink cid).getD (fallbackInvite cid))
          (pyReplace (strLit "verify_") [] payload)] ∧
    ((check_force_sub cfg env).map fun cid =>
        (env.inviteLink cid).getD (fallbackInvite cid)).length
      = (check_force_sub cfg env).length ∧
    (hasPat (strLit "verify_") payload = false →
      pyReplace (strLit "verify_") [] payload = payload) ∧
    (∀ t, hasPat (strLit "verify_") t = false →
      pyReplace (strLit "verify_") [] (strLit "verify_" ++ t) = t) := by
  refine ⟨?_, List.length_map _ _, fun h => pyReplace_no_occur _ _ _ h, fun t ht => ?_⟩
  · have hpay : (([c0, payload] : List PyStr).get? 1).getD [] = payload := rfl
    simp only [start_handler]
    rw [hpay, hban]
    simp [hmiss]
  · have hv : strLit "verify_" = 118 :: strLit "erify_" := by decide
    rw [hv]
    exact pyReplace_head 118 (strLit "erify_") t (by rw [← hv]; exact ht)

theorem access_denied_remediation_witness :
    start_handler cfgC6 envC6 [strLit "start", strLit "NQ"]
      = [Action.replyAccessDenied
          ((check_force_sub cfgC6 envC6).map fun cid =>
            (envC6.inviteLink cid).getD (fallbackInvite cid))
          (pyReplace (strLit "verify_") [] (strLit "NQ"))] ∧
    ((check_force_sub cfgC6 envC6).map fun cid =>
        (envC6.inviteLink cid).getD (fallbackInvite cid)).length
      = (check_force_sub cfgC6 envC6).length ∧
    (hasPat (strLit "verify_") (strLit "NQ") = false →
      pyReplace (strLit "verify_") [] (strLit "NQ") = strLit "NQ") ∧
    (∀ t, hasPat (strLit "verify_") t = false →
      pyReplace (strLit "verify_") [] (strLit "verify_" ++ t) = t) :=
  access_denied_remediation cfgC6 envC6 (strLit "start") (strLit "NQ")
    (by decide) (by decide)

-- ===========================================================================
-- C9: the verify_ payload is unauthenticated
-- ===========================================================================

def cfgC9 : Config := ⟨[], [strLit "https://short.example/api?u="], true, 600⟩

def envC9 : Env :=
  ⟨fun _ => MemberLookup.failure, fun _ => none, ShortenerResponse.failure,
    fun _ => true, strLit "FileBot", some ⟨false, false⟩, []⟩

/-- C9 counterexample: the token `M_` decodes to 3 ≠ 0, yet the payload
`verify_M_` does not deliver content 3: `payload.split("_")[1]` truncates
the token at its underscore (a character of the URL-safe base64 alphabet),
so the handler decodes `M`, gets 0, and replies Invalid Link. -/
theorem verify_unauth_cex :
    decode (strLit "M_") = 3 ∧
    start_handler cfgC9 envC9 [strLit "start", strLit "verify_M_"]
      = [Action.replyInvalidLink] := by
  constructor
  · decide
  · decide

/-- C9 amended: for every user who passes the gate (premium or not, any
stored record) and every underscore-free token `t` with `decode t ≠ 0`,
the payload `verify_<t>` immediately invokes content delivery with no
shortener call and no check that any verification round-trip occurred —
the environment carries no verification state at all, and the branch is
chosen purely by the string prefix. -/
theorem verify_unauth (cfg : Config) (env : Env) (c0 t : PyStr)
    (hban : user_banned env.user = false)
    (hmiss : check_force_sub cfg env = [])
    (hsep : (95 : Nat) ∉ t)
    (hdec : decode t ≠ 0) :
    Action.copyContent (decode t) cfg.protectContent
        ∈ start_handler cfg env [c0, strLit "verify_" ++ t] ∧
    ∀ url, Action.callShortener url ∉ start_handler cfg env [c0, strLit "verify_" ++ t] := by
  have hpay : (([c0, strLit "verify_" ++ t] : List PyStr).get? 1).getD []
      = strLit "verify_" ++ t := rfl
  have htrace : start_handler cfg env [c0, strLit "verify_" ++ t]
      = Action.copyContent (decode t) cfg.protectContent ::
          (if env.copyOk (decode t) then
            (if cfg.autoDeleteTime > 0 then
              [Action.scheduleAutoDelete cfg.autoDeleteTime, Action.replyDeleteNote,
                Action.scheduleAutoDelete cfg.autoDeleteTime]
             else [])
           else [Action.replyErrorFetching]) := by
    simp only [start_handler]
    rw [hpay, hban, hmiss, not_batch_of_verify t, verify_isPrefixOf_self t,
      verify_code t hsep]
    simp [hdec]
  constructor
  · rw [htrace]
    exact List.mem_cons_self _ _
  · intro url hmem
    rw [htrace] at hmem
    rcases List.mem_cons.mp hmem with h | h
    · simp at h
    · split_ifs at h <;> simp at h

theorem verify_unauth_witness :
    Action.copyContent (decode (strLit "NQ")) cfgC9.protectContent
        ∈ start_handler cfgC9 envC9 [strLit "start", strLit "verify_" ++ strLit "NQ"] ∧
    ∀ url, Action.callShortener url
        ∉ start_handler cfgC9 envC9 [strLit "start", strLit "verify_" ++ strLit "NQ"] :=
  verify_unauth cfgC9 envC9 (strLit "start") (strLit "NQ")
    (by decide) (by decide) (by decide) (by decide)

-- ===========================================================================
-- C7: batch integrity
-- ===========================================================================

/-- C7: with `lastId ≥ firstId` and a freshly generated id not already in
the collection, `save_batch` persists the inclusive, strictly increasing,
contiguous range `[firstId..lastId]`, and `get_batch` of the returned id
yields exactly that sequence. -/
theorem batch_roundtrip (store : List BatchRec) (freshId : PyStr) (start_id end_id : Int)
    (hle : start_id ≤ end_id)
    (hfresh : ∀ r ∈ store, r.batch_id ≠ freshId) :
    get_batch (save_batch store freshId (intRangeIncl start_id end_id)).1
        (save_batch store freshId (intRangeIncl start_id end_id)).2
      = some (intRangeIncl start_id end_id) ∧
    List.Pairwise (· < ·) (intRangeIncl start_id end_id) ∧
    (∀ k : Int, k ∈ intRangeIncl start_id end_id ↔ start_id ≤ k ∧ k ≤ end_id) ∧
    (intRangeIncl start_id end_id).length = (end_id + 1 - start_id).toNat := by
  refine ⟨?_, ?_, ?_, ?_⟩
  · unfold get_batch save_batch
    rw [List.find?_append]
    have hnone : store.find? (fun r => r.batch_id == freshId) = none := by
      rw [List.find?_eq_none]
      intro r hr
      simp [hfresh r hr]
    rw [hnone]
    simp
  · unfold intRangeIncl
    rw [List.pairwise_map]
    apply (List.pairwise_lt_range _).imp
    intro a b hab
    omega
  · intro k
    unfold intRangeIncl
    simp only [List.mem_map, List.mem_range]
    constructor
    · rintro ⟨j, hj, rfl⟩
      omega
    · rintro ⟨h1, h2⟩
      refine ⟨(k - start_id).toNat, ?_, ?_⟩ <;> omega
  · simp [intRangeIncl]

def storeC7 : List BatchRec := []

def idC7 : PyStr := strLit "aB3xY7Qz"

theorem batch_roundtrip_witness :
    get_batch (save_batch storeC7 idC7 (intRangeIncl 5 9)).1
        (save_batch storeC7 idC7 (intRangeIncl 5 9)).2
      = some (intRangeIncl 5 9) ∧
    List.Pairwise (· < ·) (intRangeIncl 5 9) ∧
    (∀ k : Int, k ∈ intRangeIncl 5 9 ↔ 5 ≤ k ∧ k ≤ 9) ∧
    (intRangeIncl 5 9).length = ((9 : Int) + 1 - 5).toNat ∧
    intRangeIncl 5 9 = [5, 6, 7, 8, 9] := by
  have h := batch_roundtrip storeC7 idC7 5 9 (by decide) (by decide)
  exact ⟨h.1, h.2.1, h.2.2.1, h.2.2.2, by decide⟩

-- ===========================================================================
-- C10: reversed ranges are accepted and yield empty batches
-- ===========================================================================

/-- C10: `lastId ≥ firstId` is not enforced: with `lastId < firstId`,
batch creation persists a record with an empty contentIds sequence under
the fresh id, reports success with a file count of 0, and resolving the
batch delivers zero items with no error reply (only the progress message
and its deletion). -/
theorem reversed_batch_empty (store : List BatchRec) (freshId : PyStr)
    (start_id end_id : Int) (cfg : Config) (env : Env) (c0 : PyStr)
    (hlt : end_id < start_id)
    (hfresh : ∀ r ∈ store, r.batch_id ≠ freshId)
    (hsep : (95 : Nat) ∉ freshId)
    (hban : user_banned env.user = false)
    (hmiss : check_force_sub cfg env = [])
    (hstore : env.store = (batch_handler store freshId start_id end_id).1) :
    intRangeIncl start_id end_id = [] ∧
    batch_handler store freshId start_id end_id
      = (store ++ [⟨freshId, []⟩], freshId, 0) ∧
    get_batch (batch_handler store freshId start_id end_id).1 freshId = some [] ∧
    start_handler cfg env [c0, strLit "batch_" ++ freshId]
      = [Action.replyProcessing 0, Action.deleteStatus] := by
  have hempty : intRangeIncl start_id end_id = [] := by
    have h0 : (end_id + 1 - start_id).toNat = 0 := by omega
    simp [intRangeIncl, h0]
  have hbatch : batch_handler store freshId start_id end_id
      = (store ++ [⟨freshId, []⟩], freshId, 0) := by
    simp [batch_handler, save_batch, hempty]
  have hget : get_batch (store ++ [⟨freshId, []⟩]) freshId = some [] := by
    unfold get_batch
    rw [List.find?_append]
    have hnone : store.find? (fun r => r.batch_id == freshId) = none := by
      rw [List.find?_eq_none]
      intro r hr
      simp [hfresh r hr]
    rw [hnone]
    simp
  refine ⟨hempty, hbatch, by rw [hbatch]; exact hget, ?_⟩
  have hpay : (([c0, strLit "batch_" ++ freshId] : List PyStr).get? 1).getD []
      = strLit "batch_" ++ freshId := rfl
  simp only [start_handler]
  rw [hpay, hban, hmiss, batch_isPrefixOf_self freshId, batch_code freshId hsep]
  rw [hstore, hbatch]
  simp [hget]

def storeC10 : List BatchRec := []

def idC10 : PyStr := strLit "aZ3k9QwX"

def cfgC10 : Config := ⟨[], [], true, 600⟩

def envC10 : Env :=
  ⟨fun _ => MemberLookup.failure, fun _ => none, ShortenerResponse.failure,
    fun _ => true, strLit "FileBot", none,
    (batch_handler storeC10 idC10 9 5).1⟩

theorem reversed_batch_empty_witness :
    intRangeIncl 9 5 = [] ∧
    batch_handler storeC10 idC10 9 5 = (storeC10 ++ [⟨idC10, []⟩], idC10, 0) ∧
    get_batch (batch_handler storeC10 idC10 9 5).1 idC10 = some [] ∧
    start_handler cfgC10 envC10 [strLit "start", strLit "batch_" ++ idC10]
      = [Action.replyProcessing 0, Action.deleteStatus] :=
  reversed_batch_empty storeC10 idC10 9 5 cfgC10 envC10 (strLit "start")
    (by decide) (by decide) (by decide) (by decide) (by decide) rfl

-- ===========================================================================
-- C8: broadcast throttle handling
-- ===========================================================================

/-- C8 counterexample: a throttle whose single retry fails with a
non-throttle error aborts the fan-out — the first audience entry raises
FloodWait(2), its retry raises; `completed = false` records that the loop
never reached the rest of the audience (the second entry, which would
have succeeded, as the second conjunct shows). -/
theorem broadcast_retry_abort_cex :
    broadcast [(SendOutcome.floodWait 2, SendOutcome.error), (SendOutcome.ok, SendOutcome.ok)]
      = ⟨0, 0, [2], false⟩ ∧
    broadcast [(SendOutcome.ok, SendOutcome.ok)] = ⟨1, 0, [], true⟩ := by
  constructor
  · decide
  · decide

/-- C8 amended: on a throttle the executor sleeps exactly the signalled
duration once and retries that delivery once; any other first-attempt
failure increments the failure counter and moves on.  When every throttle
retry succeeds the fan-out runs to completion with the expected tallies
and one sleep per throttle; but a failing throttle retry raises out of the
loop (the retry is not inside a `try`), aborting the fan-out with the
remaining audience unprocessed and no final tally. -/
theorem broadcast_behavior :
    (∀ l : List (SendOutcome × SendOutcome), (∀ p ∈ l, goodRetry p = true) →
      broadcast l = ⟨l.countP attemptSuccess, l.countP attemptFailed, floodWaits l, true⟩) ∧
    (∀ (pre : List (SendOutcome × SendOutcome)) (w : Nat) (retry : SendOutcome)
        (post : List (SendOutcome × SendOutcome)),
      retry ≠ SendOutcome.ok →
      (∀ p ∈ pre, goodRetry p = true) →
      broadcast (pre ++ (SendOutcome.floodWait w, retry) :: post)
        = ⟨pre.countP attemptSuccess, pre.countP attemptFailed,
            floodWaits pre ++ [w], false⟩) := by
  constructor
  · intro l hl
    induction l with
    | nil => rfl
    | cons p rest ih =>
        obtain ⟨first, retry⟩ := p
        have hrest : ∀ q ∈ rest, goodRetry q = true := fun q hq => hl q (by simp [hq])
        have hr := ih hrest
        cases first with
        | ok =>
            simp [broadcast, hr, attemptSuccess, attemptFailed, floodWaits, List.countP_cons]
        | error =>
            simp [broadcast, hr, attemptSuccess, attemptFailed, floodWaits, List.countP_cons]
        | floodWait w =>
            have hg := hl (SendOutcome.floodWait w, retry) (by simp)
            have hry : retry = SendOutcome.ok := by
              simpa [goodRetry] using hg
            subst hry
            simp [broadcast, hr, attemptSuccess, attemptFailed, floodWaits, List.countP_cons]
  · intro pre w retry post hretry hpre
    induction pre with
    | nil =>
        cases retry with
        | ok => exact absurd rfl hretry
        | floodWait w2 => simp [broadcast, floodWaits]
        | error => simp [broadcast, floodWaits]
    | cons p rest ih =>
        obtain ⟨first, r2⟩ := p
        have hrest : ∀ q ∈ rest, goodRetry q = true := fun q hq => hpre q (by simp [hq])
        have hr := ih hrest
        cases first with
        | ok =>
            simp [broadcast, hr, attemptSuccess, attemptFailed, floodWaits, List.countP_cons]
        | error =>
            simp [broadcast, hr, attemptSuccess, attemptFailed, floodWaits, List.countP_cons]
        | floodWait w2 =>
            have hg := hpre (SendOutcome.floodWait w2, r2) (by simp)
            have hry : r2 = SendOutcome.ok := by
              simpa [goodRetry] using hg
            subst hry
            simp [broadcast, hr, attemptSuccess, attemptFailed, floodWaits, List.countP_cons]

theorem broadcast_behavior_witness :
    broadcast [(SendOutcome.ok, SendOutcome.ok), (SendOutcome.floodWait 7, SendOutcome.ok),
        (SendOutcome.error, SendOutcome.ok)]
      = ⟨2, 1, [7], true⟩ := by
  have h := broadcast_behavior.1
    [(SendOutcome.ok, SendOutcome.ok), (SendOutcome.floodWait 7, SendOutcome.ok),
      (SendOutcome.error, SendOutcome.ok)] (by decide)
  rw [h]
  decide

end FileStore
